import Mathlib

/-!
Verification of the authentication-flow controller of Wt's AuthModel
(src/src/Wt/Auth/AuthModel.h).  The repository excerpt is a
declaration-only header, so each operation below is a shallow embedding
modelled from the design specification and the header's documentation
comments; the doc comment of each definition records this.
-/

namespace Wt.Auth

/-- Session login states.  Modelled from the spec: Session is a
finite-state object with states LoggedOut, RequiresMfa, Weak, Strong. -/
inductive LoginState where
  | LoggedOut
  | Weak
  | RequiresMfa
  | Strong
deriving DecidableEq, Repr

/-- Modelled from the spec: a User is an opaque identity handle with a
unique login name, a stored credential verifier reference (modelled as the
stored password the verifier checks against), zero or more linked
third-party identities keyed by provider name, and an email-verified flag.
The header speaks of an "invalid User object", so validity is an explicit
flag. -/
structure User where
  valid : Bool
  loginName : String
  password : String
  identities : List String
  emailVerified : Bool
deriving DecidableEq, Repr

/-- Modelled from the spec/header: the invalid User object returned when
identification fails. -/
def invalidUser : User :=
  { valid := false, loginName := "", password := "", identities := [],
    emailVerified := false }

/-- Modelled from the spec: configuration of the AuthService consumed by
this core (MFA enablement/requirement, the configured MFA provider, the
remember-me token feature flag, email-verification requirement). -/
structure AuthServiceConfig where
  mfaEnabled : Bool
  mfaRequired : Bool
  mfaProvider : String
  authTokensEnabled : Bool
  emailVerificationRequired : Bool
deriving DecidableEq, Repr

/-- Modelled from the spec: a login session, mutated only by the
SessionController operations. -/
structure Session where
  state : LoginState
  user : Option User
deriving DecidableEq, Repr

/-- Modelled from the spec and the header doc of hasMfaStep: returns true
iff the MFA step is both enabled and required by configuration, or MFA is
enabled and the user has a linked identity for the configured MFA
provider.  Pure function of the configuration and the user's
linked-identity set. -/
def hasMfaStep (cfg : AuthServiceConfig) (user : User) : Bool :=
  (cfg.mfaEnabled && cfg.mfaRequired) ||
    (cfg.mfaEnabled && decide (cfg.mfaProvider ∈ user.identities))

/-- Modelled from the spec and the header doc of login: requires an
already-identified user; sets session state to RequiresMfa if
hasMfaStep(user), else Strong; returns false with no state change if the
user handle is invalid. -/
def login (cfg : AuthServiceConfig) (user : User) (s : Session) :
    Bool × Session :=
  if user.valid then
    (true, { state := if hasMfaStep cfg user then .RequiresMfa else .Strong,
             user := some user })
  else
    (false, s)

/-- Modelled from the spec: throttling configuration, an on/off switch and
the configured maximum delay in seconds. -/
structure ThrottleConfig where
  enabled : Bool
  maxDelay : Nat
deriving DecidableEq, Repr

/-- Modelled from the spec: ThrottlingPolicy.delay maps the
consecutive-failed-attempt count to a backoff delay in seconds:
monotonically non-decreasing, bounded above by the configured maximum,
zero when the attempt count is zero or throttling is disabled.  The
concrete exponential shape stands in for the unspecified schedule. -/
def delay (tc : ThrottleConfig) (attemptCount : Nat) : Nat :=
  if tc.enabled then min (2 ^ attemptCount - 1) tc.maxDelay else 0

/-- Modelled from the spec: transient validation input — login name,
password, remember-me flag.  Never persisted. -/
structure LoginFields where
  loginName : String
  password : String
  rememberMe : Bool
deriving DecidableEq, Repr

/-- Modelled from the spec: the error taxonomy of CredentialValidator.
InvalidCredentials deliberately carries no payload so "no such user" and
"wrong password" are indistinguishable; Throttled carries the remaining
seconds so a UI can show a countdown. -/
inductive CredentialError where
  | MissingField
  | InvalidCredentials
  | Throttled (remainingSeconds : Nat)
deriving DecidableEq, Repr

/-- Modelled from the spec: the password-verification capability
verify(user, secret), checking the secret against the user's stored
credential verifier. -/
def verify (user : User) (secret : String) : Bool :=
  user.password == secret

/-- Modelled from the spec: the user-store lookup capability
lookup(name), finding the identity with the given login name. -/
def lookupUser (store : List User) (name : String) : Option User :=
  store.find? (fun u => u.loginName == name)

/-- Result of a validation attempt: the outcome, the updated
failed-attempt counter, and how many password comparisons were performed
(so that timing-relevant behaviour is observable in the model). -/
structure ValidateResult where
  outcome : Except CredentialError User
  attempts : Nat
  verifications : Nat
deriving Repr

/-- Modelled from the spec: CredentialValidator.validate.  Rejects empty
fields as MissingField; fails immediately with Throttled when the current
computed delay is non-zero, without attempting verification; when the
login name is absent from the store, still performs one (dummy) password
comparison and fails with the same InvalidCredentials used for a wrong
password; on mismatch increments the attempt counter; on success resets
it and returns the identified user. -/
def validate (tc : ThrottleConfig) (store : List User)
    (fields : LoginFields) (attempts : Nat) : ValidateResult :=
  if fields.loginName == "" || fields.password == "" then
    ⟨.error .MissingField, attempts, 0⟩
  else if delay tc attempts ≠ 0 then
    ⟨.error (.Throttled (delay tc attempts)), attempts, 0⟩
  else
    match lookupUser store fields.loginName with
    | none => ⟨.error .InvalidCredentials, attempts + 1, 1⟩
    | some u =>
      if verify u fields.password then ⟨.ok u, 0, 1⟩
      else ⟨.error .InvalidCredentials, attempts + 1, 1⟩

/-- Purposes an email token can be bound to. -/
inductive TokenPurpose where
  | verifyEmail
  | resetPassword
deriving DecidableEq, Repr

/-- Modelled from the spec: an EmailToken is a one-shot token bound to a
User and a purpose, invalid after consumption or expiry (expiry modelled
as a flag since no real clock exists in the core). -/
structure EmailToken where
  value : String
  user : User
  purpose : TokenPurpose
  expired : Bool
  used : Bool
deriving DecidableEq, Repr

/-- Modelled from the spec: the closed result enumeration of
processEmailToken. -/
inductive EmailTokenResult where
  | Invalid
  | Expired
  | AlreadyUsed
  | Valid (user : User) (purpose : TokenPurpose)
deriving DecidableEq, Repr

/-- Modelled from the spec: EmailTokenProcessor.processEmailToken, which
the header says simply delegates to AuthService::processEmailToken.
Unknown tokens are Invalid; a consumed token is AlreadyUsed; an expired
one Expired; otherwise the token is consumed (marked used) exactly once
and the bound user and purpose are returned. -/
def processEmailToken (store : List EmailToken) (token : String) :
    EmailTokenResult × List EmailToken :=
  match store.find? (fun t => t.value == token) with
  | none => (.Invalid, store)
  | some t =>
    if t.used then (.AlreadyUsed, store)
    else if t.expired then (.Expired, store)
    else (.Valid t.user t.purpose,
          store.map (fun t' =>
            if t'.value == token then { t' with used := true } else t'))

/-- Modelled from the spec: a RememberToken is an opaque signed token
value bound to a User with an expiry; opaque values are modelled as the
Nat identifiers handed out by the token-issuing capability. -/
structure RememberToken where
  value : Nat
  user : User
  expired : Bool
deriving DecidableEq, Repr

/-- Modelled from the spec: the token-issuing capability's store of
outstanding remember tokens, with the next fresh identifier. -/
structure TokenStore where
  tokens : List RememberToken
  next : Nat
deriving DecidableEq, Repr

/-- Modelled from the spec: TokenAuthenticator.setRememberMeCookie —
requests a new signed token scoped to the user from the token-issuing
capability; returns the updated store and the cookie value. -/
def setRememberMeCookie (store : TokenStore) (user : User) :
    TokenStore × Nat :=
  ({ tokens := ⟨store.next, user, false⟩ :: store.tokens,
     next := store.next + 1 },
   store.next)

/-- Modelled from the spec: TokenAuthenticator.revoke — invalidates any
outstanding remember token for the user. -/
def revoke (store : TokenStore) (user : User) : TokenStore :=
  { store with tokens := store.tokens.filter (fun t => ¬(t.user = user)) }

/-- Modelled from the spec and the header doc of processAuthToken:
returns the user identified by an authentication token found in the
environment (the presented cookie), or the invalid User object if the
feature is not configured or no valid (present, known, unexpired) cookie
was found.  Revoked tokens are no longer in the store. -/
def processAuthToken (cfg : AuthServiceConfig) (store : TokenStore)
    (cookie : Option Nat) : User :=
  if cfg.authTokensEnabled then
    match cookie with
    | none => invalidUser
    | some c =>
      match store.tokens.find? (fun t => t.value == c) with
      | none => invalidUser
      | some t => if t.expired then invalidUser else t.user
  else
    invalidUser

/-- Modelled from the spec: SessionController.logout — revokes the
remember token of the session's current user if any, then transitions
the session to LoggedOut. -/
def logout (store : TokenStore) (s : Session) : TokenStore × Session :=
  match s.user with
  | some u => (revoke store u, ⟨.LoggedOut, none⟩)
  | none => (store, ⟨.LoggedOut, none⟩)

/-- Modelled from the spec's state machine: the transitions a Session can
take.  login covers both the password path and an external identity
exchange; weakIdentify is re-identification via remember token only;
weakPromote is the promotion attempt of a Weak session, which consults
the MFA evaluator exactly like login does; mfaSuccess is the external
completion of the MFA step; logout always returns to LoggedOut. -/
inductive Step (cfg : AuthServiceConfig) : Session → Session → Prop where
  | loginStep (u : User) (s : Session) (h : (login cfg u s).1 = true) :
      Step cfg s (login cfg u s).2
  | logoutStep (store : TokenStore) (s : Session) :
      Step cfg s (logout store s).2
  | weakIdentify (u : User) (s : Session) (h : u.valid = true) :
      Step cfg s ⟨.Weak, some u⟩
  | weakPromote (u : User) (s : Session) (h : s.state = .Weak)
      (hu : s.user = some u) :
      Step cfg s ⟨if hasMfaStep cfg u then .RequiresMfa else .Strong, some u⟩
  | mfaSuccess (u : User) (s : Session) (h : s.state = .RequiresMfa)
      (hu : s.user = some u) :
      Step cfg s ⟨.Strong, some u⟩

/-- Paths through the session state machine that never visit RequiresMfa
before the final state: ReachesAvoidingMfa cfg a b holds when b is
reachable from a and no state of the path except possibly b has state
RequiresMfa. -/
inductive ReachesAvoidingMfa (cfg : AuthServiceConfig) :
    Session → Session → Prop where
  | refl (s : Session) : ReachesAvoidingMfa cfg s s
  | tail (a b c : Session) (hab : ReachesAvoidingMfa cfg a b)
      (hb : b.state ≠ .RequiresMfa) (hbc : Step cfg b c) :
      ReachesAvoidingMfa cfg a c

/-- Concrete configuration with MFA enabled but not required, used to
instantiate theorems with hypotheses. -/
def mfaCfg : AuthServiceConfig :=
  { mfaEnabled := true, mfaRequired := false, mfaProvider := "totp",
    authTokensEnabled := true, emailVerificationRequired := false }

/-- Concrete configuration with MFA disabled, used to instantiate
theorems with hypotheses. -/
def noMfaCfg : AuthServiceConfig :=
  { mfaEnabled := false, mfaRequired := false, mfaProvider := "totp",
    authTokensEnabled := true, emailVerificationRequired := false }

/-- Concrete user with a linked identity for the "totp" provider. -/
def alice : User :=
  { valid := true, loginName := "alice", password := "secret",
    identities := ["totp"], emailVerified := true }

/-- Concrete user with no linked identities. -/
def bob : User :=
  { valid := true, loginName := "bob", password := "hunter2",
    identities := [], emailVerified := false }

/-- Concrete one-shot email-token store with a single fresh token. -/
def emailStore : List EmailToken :=
  [⟨"e1", alice, .verifyEmail, false, false⟩]

/-- The email-token store after consuming the token of emailStore. -/
def emailStoreUsed : List EmailToken :=
  [⟨"e1", alice, .verifyEmail, false, true⟩]

/-- Concrete remember-token store holding one token each for alice and
bob. -/
def tokStore : TokenStore :=
  { tokens := [⟨0, alice, false⟩, ⟨1, bob, false⟩], next := 2 }

/-- C3: hasMfaStep(user) is true iff MFA is enabled and unconditionally
required by configuration, or MFA is enabled and the user has a linked
identity for the configured MFA provider; otherwise false; and it is a
pure function of the configuration and the user's linked-identity set
(two users with the same identities get the same answer). -/
theorem hasMfaStep_spec : ∀ (cfg : AuthServiceConfig) (u : User),
    (hasMfaStep cfg u = true ↔
      (cfg.mfaEnabled = true ∧ cfg.mfaRequired = true) ∨
      (cfg.mfaEnabled = true ∧ cfg.mfaProvider ∈ u.identities)) ∧
    (∀ u' : User, u.identities = u'.identities →
      hasMfaStep cfg u = hasMfaStep cfg u') := by
  intro cfg u
  constructor
  · simp [hasMfaStep, Bool.or_eq_true, Bool.and_eq_true, decide_eq_true_eq]
  · intro u' h
    simp [hasMfaStep, h]

/-- Witness for hasMfaStep_spec at concrete inputs. -/
theorem hasMfaStep_spec_witness :
    (hasMfaStep mfaCfg alice = true ↔
      (mfaCfg.mfaEnabled = true ∧ mfaCfg.mfaRequired = true) ∨
      (mfaCfg.mfaEnabled = true ∧ mfaCfg.mfaProvider ∈ alice.identities)) ∧
    hasMfaStep mfaCfg alice =
      hasMfaStep mfaCfg { bob with identities := ["totp"] } :=
  ⟨(hasMfaStep_spec mfaCfg alice).1,
   (hasMfaStep_spec mfaCfg alice).2 { bob with identities := ["totp"] } rfl⟩

/-- C2: login sets the session state to RequiresMfa when
hasMfaStep(user) is true and to Strong otherwise (recording the user in
the session), and returns false leaving the session unchanged when the
user handle is invalid. -/
theorem login_spec : ∀ (cfg : AuthServiceConfig) (u : User) (s : Session),
    (u.valid = true → hasMfaStep cfg u = true →
      login cfg u s = (true, ⟨.RequiresMfa, some u⟩)) ∧
    (u.valid = true → hasMfaStep cfg u = false →
      login cfg u s = (true, ⟨.Strong, some u⟩)) ∧
    (u.valid = false → login cfg u s = (false, s)) := by
  intro cfg u s
  refine ⟨fun h1 h2 => ?_, fun h1 h2 => ?_, fun h1 => ?_⟩
  · simp [login, h1, h2]
  · simp [login, h1, h2]
  · simp [login, h1]

/-- Witness for login_spec at concrete inputs. -/
theorem login_spec_witness :
    login mfaCfg alice ⟨.LoggedOut, none⟩ =
      (true, ⟨.RequiresMfa, some alice⟩) ∧
    login noMfaCfg bob ⟨.LoggedOut, none⟩ = (true, ⟨.Strong, some bob⟩) ∧
    login mfaCfg { alice with valid := false } ⟨.Weak, some bob⟩ =
      (false, ⟨.Weak, some bob⟩) :=
  ⟨(login_spec mfaCfg alice ⟨.LoggedOut, none⟩).1 (by decide) (by decide),
   (login_spec noMfaCfg bob ⟨.LoggedOut, none⟩).2.1 (by decide) (by decide),
   (login_spec mfaCfg { alice with valid := false }
      ⟨.Weak, some bob⟩).2.2 (by decide)⟩

/-- C6: the throttling delay is monotonically non-decreasing in the
attempt count, bounded above by the configured maximum, zero at attempt
count zero, and identically zero when throttling is disabled. -/
theorem delay_monotone_bounded : ∀ tc : ThrottleConfig,
    (∀ n1 n2 : Nat, n1 < n2 → delay tc n1 ≤ delay tc n2) ∧
    (∀ n : Nat, delay tc n ≤ tc.maxDelay) ∧
    delay tc 0 = 0 ∧
    (tc.enabled = false → ∀ n : Nat, delay tc n = 0) := by
  intro tc
  refine ⟨fun n1 n2 h => ?_, fun n => ?_, ?_, fun h n => ?_⟩
  · unfold delay
    split
    · exact min_le_min
        (Nat.sub_le_sub_right
          (Nat.pow_le_pow_right (by norm_num) h.le) 1) le_rfl
    · exact le_rfl
  · unfold delay
    split
    · exact min_le_right _ _
    · exact Nat.zero_le _
  · simp [delay]
  · simp [delay, h]

/-- C4: for an unknown login name and for a known login name with a
wrong password, validate produces literally the same result — the same
InvalidCredentials variant with no distinguishing payload, the same
attempt-counter update, and exactly one password comparison in both
cases (the dummy comparison is performed even when the user is absent). -/
theorem validate_indistinguishable :
    ∀ (tc : ThrottleConfig) (store : List User) (f1 f2 : LoginFields)
      (attempts : Nat) (u : User),
    f1.loginName ≠ "" → f1.password ≠ "" →
    f2.loginName ≠ "" → f2.password ≠ "" →
    delay tc attempts = 0 →
    lookupUser store f1.loginName = none →
    lookupUser store f2.loginName = some u →
    verify u f2.password = false →
    validate tc store f1 attempts = validate tc store f2 attempts ∧
    (validate tc store f1 attempts).outcome =
      .error .InvalidCredentials ∧
    (validate tc store f1 attempts).verifications = 1 := by
  intro tc store f1 f2 attempts u hn1 hp1 hn2 hp2 hd hl1 hl2 hv
  simp [validate, hn1, hp1, hn2, hp2, hd, hl1, hl2, hv]

/-- Witness for validate_indistinguishable at concrete inputs: the store
holds only alice; "mallory" is absent, "alice" gets a wrong password. -/
theorem validate_indistinguishable_witness :
    validate ⟨true, 25⟩ [alice] ⟨"mallory", "x", false⟩ 0 =
      validate ⟨true, 25⟩ [alice] ⟨"alice", "wrong", false⟩ 0 ∧
    (validate ⟨true, 25⟩ [alice] ⟨"mallory", "x", false⟩ 0).outcome =
      .error .InvalidCredentials ∧
    (validate ⟨true, 25⟩ [alice]
      ⟨"mallory", "x", false⟩ 0).verifications = 1 :=
  validate_indistinguishable ⟨true, 25⟩ [alice] ⟨"mallory", "x", false⟩
    ⟨"alice", "wrong", false⟩ 0 alice (by decide) (by decide) (by decide)
    (by decide) (by decide) (by decide) (by decide) (by decide)

/-- C5: when the computed throttling delay is non-zero (and the fields
are present), validate fails immediately with Throttled carrying the
remaining seconds, performs no password comparison, and the Throttled
variant is distinct from InvalidCredentials. -/
theorem validate_throttled :
    ∀ (tc : ThrottleConfig) (store : List User) (fields : LoginFields)
      (attempts : Nat),
    fields.loginName ≠ "" → fields.password ≠ "" →
    delay tc attempts ≠ 0 →
    validate tc store fields attempts =
      ⟨.error (.Throttled (delay tc attempts)), attempts, 0⟩ ∧
    (∀ n : Nat,
      CredentialError.Throttled n ≠ CredentialError.InvalidCredentials) := by
  intro tc store fields attempts hn hp hd
  constructor
  · simp [validate, hn, hp, hd]
  · intro n h
    cases h

/-- Witness for validate_throttled at concrete inputs: one prior failed
attempt yields a delay of one second. -/
theorem validate_throttled_witness :
    validate ⟨true, 25⟩ [alice] ⟨"alice", "secret", false⟩ 1 =
      ⟨.error (.Throttled (delay ⟨true, 25⟩ 1)), 1, 0⟩ ∧
    (∀ n : Nat,
      CredentialError.Throttled n ≠ CredentialError.InvalidCredentials) :=
  validate_throttled ⟨true, 25⟩ [alice] ⟨"alice", "secret", false⟩ 1
    (by decide) (by decide) (by decide)

/-- The token found for a given value is found marked used after the
consuming map that processEmailToken applies to the store. -/
theorem find?_mark_used (store : List EmailToken) (tok : String)
    (t : EmailToken)
    (h : store.find? (fun t' => t'.value == tok) = some t) :
    (store.map (fun t' =>
        if t'.value == tok then { t' with used := true } else t')).find?
      (fun t' => t'.value == tok) = some { t with used := true } := by
  induction store with
  | nil => simp at h
  | cons hd tl ih =>
    cases hhd : hd.value == tok with
    | true =>
      simp only [List.find?, hhd] at h
      injection h with h
      subst h
      simp [List.find?, hhd]
    | false =>
      simp only [List.find?, hhd] at h
      simpa [List.find?, List.map_cons, hhd] using ih h

/-- C7: processEmailToken always yields a result in the closed set
Invalid, Expired, AlreadyUsed, Valid(user, purpose); and consumption is
exactly-once: after a Valid result, a second call with the same token
string on the updated store yields AlreadyUsed. -/
theorem processEmailToken_spec : ∀ (store : List EmailToken) (tok : String),
    ((processEmailToken store tok).1 = .Invalid ∨
     (processEmailToken store tok).1 = .Expired ∨
     (processEmailToken store tok).1 = .AlreadyUsed ∨
     ∃ u p, (processEmailToken store tok).1 = .Valid u p) ∧
    (∀ (u : User) (p : TokenPurpose) (store' : List EmailToken),
      processEmailToken store tok = (.Valid u p, store') →
      (processEmailToken store' tok).1 = .AlreadyUsed) := by
  intro store tok
  constructor
  · rcases hf : store.find? (fun t => t.value == tok) with _ | t
    · simp [processEmailToken, hf]
    · by_cases h1 : t.used = true
      · simp [processEmailToken, hf, h1]
      · by_cases h2 : t.expired = true
        · simp [processEmailToken, hf, h1, h2]
        · refine Or.inr (Or.inr (Or.inr ⟨t.user, t.purpose, ?_⟩))
          simp [processEmailToken, hf, h1, h2]
  · intro u p store' h
    rcases hf : store.find? (fun t => t.value == tok) with _ | t
    · simp [processEmailToken, hf] at h
    · by_cases h1 : t.used = true
      · simp [processEmailToken, hf, h1] at h
      · by_cases h2 : t.expired = true
        · simp [processEmailToken, hf, h1, h2] at h
        · have hm := find?_mark_used store tok t hf
          simp only [processEmailToken, hf, h1, h2, if_neg,
            Bool.false_eq_true, not_false_iff, Prod.mk.injEq] at h
          obtain ⟨-, hs⟩ := h
          rw [← hs]
          simp only [processEmailToken, hm]
          simp

/-- Witness for processEmailToken_spec at concrete inputs: consuming the
token once yields Valid, a second call yields AlreadyUsed. -/
theorem processEmailToken_spec_witness :
    ((processEmailToken emailStore "e1").1 = .Invalid ∨
     (processEmailToken emailStore "e1").1 = .Expired ∨
     (processEmailToken emailStore "e1").1 = .AlreadyUsed ∨
     ∃ u p, (processEmailToken emailStore "e1").1 = .Valid u p) ∧
    (processEmailToken emailStoreUsed "e1").1 = .AlreadyUsed :=
  ⟨(processEmailToken_spec emailStore "e1").1,
   (processEmailToken_spec emailStore "e1").2 alice .verifyEmail
     emailStoreUsed (by decide)⟩

/-- C8: logout revokes the remember tokens of the session's current user
if any (leaving the store untouched when there is none), transitions the
session to LoggedOut, is idempotent, and on an already-logged-out session
is a no-op on the store and the session. -/
theorem logout_spec : ∀ (store : TokenStore) (s : Session),
    (logout store s).2 = ⟨.LoggedOut, none⟩ ∧
    (∀ u : User, s.user = some u →
      (logout store s).1 = revoke store u ∧
      ∀ t ∈ (logout store s).1.tokens, t.user ≠ u) ∧
    (s.user = none → (logout store s).1 = store) ∧
    logout (logout store s).1 (logout store s).2 = logout store s ∧
    (s = ⟨.LoggedOut, none⟩ → logout store s = (store, s)) := by
  intro store s
  rcases s with ⟨st, u⟩
  cases u with
  | none =>
    refine ⟨rfl, ?_, fun _ => rfl, rfl, ?_⟩
    · intro u h
      simp at h
    · intro h
      rw [h]
      rfl
  | some u0 =>
    refine ⟨rfl, ?_, ?_, rfl, ?_⟩
    · intro u h
      injection h with h
      subst h
      refine ⟨rfl, ?_⟩
      intro t ht
      simp only [logout, revoke, List.mem_filter, decide_not] at ht
      simpa using ht.2
    · intro h
      simp at h
    · intro h
      injection h with h1 h2
      simp at h2

/-- Witness for logout_spec at concrete inputs: logging alice out of a
Strong session revokes exactly her token, and logging out a logged-out
session changes nothing. -/
theorem logout_spec_witness :
    (logout tokStore ⟨.Strong, some alice⟩).2 = ⟨.LoggedOut, none⟩ ∧
    (logout tokStore ⟨.Strong, some alice⟩).1 = revoke tokStore alice ∧
    (∀ t ∈ (logout tokStore ⟨.Strong, some alice⟩).1.tokens,
      t.user ≠ alice) ∧
    (logout tokStore ⟨.Weak, none⟩).1 = tokStore ∧
    logout tokStore ⟨.LoggedOut, none⟩ = (tokStore, ⟨.LoggedOut, none⟩) :=
  ⟨(logout_spec tokStore ⟨.Strong, some alice⟩).1,
   ((logout_spec tokStore ⟨.Strong, some alice⟩).2.1 alice rfl).1,
   ((logout_spec tokStore ⟨.Strong, some alice⟩).2.1 alice rfl).2,
   (logout_spec tokStore ⟨.Weak, none⟩).2.2.1 rfl,
   (logout_spec tokStore ⟨.LoggedOut, none⟩).2.2.2.2 rfl⟩

/-- C10: when the authentication-token feature is not configured,
processAuthToken returns the invalid User object — the same non-error
outcome as when no cookie is presented — rather than an error. -/
theorem processAuthToken_unconfigured :
    ∀ (cfg : AuthServiceConfig) (store : TokenStore)
      (cookie : Option Nat),
    cfg.authTokensEnabled = false →
    processAuthToken cfg store cookie = invalidUser ∧
    processAuthToken cfg store cookie =
      processAuthToken cfg store none := by
  intro cfg store cookie h
  constructor
  · simp [processAuthToken, h]
  · simp [processAuthToken, h]

/-- Witness for processAuthToken_unconfigured at concrete inputs. -/
theorem processAuthToken_unconfigured_witness :
    processAuthToken { mfaCfg with authTokensEnabled := false } tokStore
      (some 0) = invalidUser ∧
    processAuthToken { mfaCfg with authTokensEnabled := false } tokStore
      (some 0) =
      processAuthToken { mfaCfg with authTokensEnabled := false }
        tokStore none :=
  processAuthToken_unconfigured { mfaCfg with authTokensEnabled := false }
    tokStore (some 0) rfl

/-- C9: processAuthToken returns the invalid User (a normal outcome, not
an error) for an absent cookie, for a cookie matching no stored token
(malformed or revoked), and for an expired token; for a freshly issued
token it returns exactly the user the token was issued for; and after a
logout that revoked the user's tokens, a cookie issued to that user
before the logout yields the invalid User. -/
theorem processAuthToken_spec :
    (∀ (cfg : AuthServiceConfig) (store : TokenStore),
      processAuthToken cfg store none = invalidUser) ∧
    (∀ (cfg : AuthServiceConfig) (store : TokenStore) (c : Nat),
      store.tokens.find? (fun t => t.value == c) = none →
      processAuthToken cfg store (some c) = invalidUser) ∧
    (∀ (cfg : AuthServiceConfig) (store : TokenStore) (c : Nat)
       (t : RememberToken),
      store.tokens.find? (fun t => t.value == c) = some t →
      t.expired = true →
      processAuthToken cfg store (some c) = invalidUser) ∧
    (∀ (cfg : AuthServiceConfig) (store : TokenStore) (u : User),
      cfg.authTokensEnabled = true →
      processAuthToken cfg (setRememberMeCookie store u).1
        (some (setRememberMeCookie store u).2) = u) ∧
    (∀ (cfg : AuthServiceConfig) (store : TokenStore) (s : Session)
       (u : User) (c : Nat),
      s.user = some u →
      (∀ t ∈ store.tokens, t.value = c → t.user = u) →
      processAuthToken cfg (logout store s).1 (some c) = invalidUser) := by
  have h2 : ∀ (cfg : AuthServiceConfig) (store : TokenStore) (c : Nat),
      store.tokens.find? (fun t => t.value == c) = none →
      processAuthToken cfg store (some c) = invalidUser := by
    intro cfg store c h
    unfold processAuthToken
    split
    · simp [h]
    · rfl
  refine ⟨?_, h2, ?_, ?_, ?_⟩
  · intro cfg store
    unfold processAuthToken
    split <;> rfl
  · intro cfg store c t h ht
    unfold processAuthToken
    split
    · simp [h, ht]
    · rfl
  · intro cfg store u he
    simp [processAuthToken, he, setRememberMeCookie, List.find?]
  · intro cfg store s u c hs hall
    rcases s with ⟨st, su⟩
    simp only at hs
    subst hs
    apply h2
    rw [List.find?_eq_none]
    intro t ht hp
    simp only [logout, revoke, List.mem_filter, decide_not] at ht
    obtain ⟨hmem, hne⟩ := ht
    have : t.user = u := hall t hmem (by simpa using hp)
    simp [this] at hne

/-- Witness for processAuthToken_spec at concrete inputs: a fresh cookie
for alice identifies alice; after logging alice out, her old cookie no
longer identifies anyone; an unknown cookie value and an expired token
also yield the invalid User. -/
theorem processAuthToken_spec_witness :
    processAuthToken mfaCfg tokStore none = invalidUser ∧
    processAuthToken mfaCfg tokStore (some 7) = invalidUser ∧
    processAuthToken mfaCfg
      ⟨[⟨3, alice, true⟩], 4⟩ (some 3) = invalidUser ∧
    processAuthToken mfaCfg (setRememberMeCookie tokStore alice).1
      (some (setRememberMeCookie tokStore alice).2) = alice ∧
    processAuthToken mfaCfg
      (logout ⟨[⟨5, alice, false⟩], 6⟩ ⟨.Strong, some alice⟩).1
      (some 5) = invalidUser :=
  ⟨processAuthToken_spec.1 mfaCfg tokStore,
   processAuthToken_spec.2.1 mfaCfg tokStore 7 (by decide),
   processAuthToken_spec.2.2.1 mfaCfg ⟨[⟨3, alice, true⟩], 4⟩ 3
     ⟨3, alice, true⟩ (by decide) rfl,
   processAuthToken_spec.2.2.2.1 mfaCfg tokStore alice rfl,
   processAuthToken_spec.2.2.2.2 mfaCfg ⟨[⟨5, alice, false⟩], 6⟩
     ⟨.Strong, some alice⟩ alice 5 rfl (by decide)⟩

/-- C1: the MFA evaluator gates every transition into Strong — any step
that ends in Strong either starts from RequiresMfa or carries a user for
whom hasMfaStep is false (so the evaluator was consulted and declined,
on the password path, the weak-promotion path and the external-identity
path alike) — and consequently, along any path from LoggedOut that never
visits RequiresMfa, a Strong state can only hold a user for whom
hasMfaStep currently reports false: a session never reaches Strong for a
hasMfaStep-true user without first passing through RequiresMfa. -/
theorem strong_requires_mfa_gate : ∀ cfg : AuthServiceConfig,
    (∀ s s' : Session, Step cfg s s' → s'.state = .Strong →
      s.state = .RequiresMfa ∨
      ∃ u, s'.user = some u ∧ hasMfaStep cfg u = false) ∧
    (∀ init s : Session, ReachesAvoidingMfa cfg init s →
      init.state = .LoggedOut → s.state = .Strong →
      ∀ u : User, s.user = some u → hasMfaStep cfg u = false) := by
  intro cfg
  have step_gate : ∀ s s' : Session, Step cfg s s' → s'.state = .Strong →
      s.state = .RequiresMfa ∨
      ∃ u, s'.user = some u ∧ hasMfaStep cfg u = false := by
    intro s s' hst hs'
    cases hst with
    | loginStep u0 s h =>
      by_cases hv : u0.valid = true
      · by_cases hm : hasMfaStep cfg u0 = true
        · simp [login, hv, hm] at hs'
        · refine Or.inr ⟨u0, ?_, by simpa using hm⟩
          simp [login, hv]
      · simp [login, hv] at h
    | logoutStep store s =>
      rcases s with ⟨st, u⟩
      cases u <;> simp [logout] at hs'
    | weakIdentify u0 s h =>
      simp at hs'
    | weakPromote u0 s h hu =>
      by_cases hm : hasMfaStep cfg u0 = true
      · simp [hm] at hs'
      · exact Or.inr ⟨u0, by simp, by simpa using hm⟩
    | mfaSuccess u0 s h hu =>
      exact Or.inl h
  refine ⟨step_gate, ?_⟩
  intro init s hreach hinit hs u hu
  cases hreach with
  | refl =>
    rw [hinit] at hs
    cases hs
  | tail b c hab hb hbc =>
    rcases step_gate b _ hbc hs with hmfa | ⟨u', hu', hm⟩
    · exact absurd hmfa hb
    · rw [hu] at hu'
      injection hu' with hu'
      rw [hu']
      exact hm

/-- Witness for strong_requires_mfa_gate at concrete inputs: bob (no MFA
identity, MFA not required) logs in from LoggedOut straight to Strong,
and the theorem confirms the evaluator reported false for him. -/
theorem strong_requires_mfa_gate_witness :
    ((Session.mk .LoggedOut none).state = .RequiresMfa ∨
      ∃ u, (login mfaCfg bob ⟨.LoggedOut, none⟩).2.user = some u ∧
        hasMfaStep mfaCfg u = false) ∧
    hasMfaStep mfaCfg bob = false :=
  ⟨(strong_requires_mfa_gate mfaCfg).1 ⟨.LoggedOut, none⟩
      (login mfaCfg bob ⟨.LoggedOut, none⟩).2
      (Step.loginStep bob ⟨.LoggedOut, none⟩ (by decide)) (by decide),
   (strong_requires_mfa_gate mfaCfg).2 ⟨.LoggedOut, none⟩
      (login mfaCfg bob ⟨.LoggedOut, none⟩).2
      (ReachesAvoidingMfa.tail _ _ _
        (ReachesAvoidingMfa.refl ⟨.LoggedOut, none⟩) (by decide)
        (Step.loginStep bob ⟨.LoggedOut, none⟩ (by decide)))
      rfl (by decide) bob (by decide)⟩

/-- Witness for delay_monotone_bounded at concrete inputs. -/
theorem delay_monotone_bounded_witness :
    delay ⟨true, 25⟩ 1 ≤ delay ⟨true, 25⟩ 2 ∧
    delay ⟨true, 25⟩ 7 ≤ 25 ∧
    delay ⟨true, 25⟩ 0 = 0 ∧
    delay ⟨false, 25⟩ 3 = 0 :=
  ⟨(delay_monotone_bounded ⟨true, 25⟩).1 1 2 (by decide),
   (delay_monotone_bounded ⟨true, 25⟩).2.1 7,
   (delay_monotone_bounded ⟨true, 25⟩).2.2.1,
   (delay_monotone_bounded ⟨false, 25⟩).2.2.2 rfl 3⟩

end Wt.Auth
